import Mathlib

/-!
Shallow embedding of the HIPPO Gym session controller (`App/trial.py`).

Mutable fields of the Python `Trial` object become a state record
(`TrialState`); external effects (websocket sends, file operations, calls
into the agent/environment) become an explicit event trace (`List Event`);
Python exceptions become an `Except` result whose error branch carries the
state at the point of the raise, so that claims about "state unchanged when
the call raises" are statable.  External inputs (polled messages, render
buffers, step results, generated uuids) are supplied by a `World` of
streams consumed at explicit cursors.
-/

/-- A parsed inbound message. Each dict key that `handle_message` inspects
becomes an `Option` field; `none` models an absent key. -/
structure Msg where
  userId : Option String := none
  command : Option String := none
  changeFrameRate : Option String := none
  action : Option String := none
  error : Option String := none
  frameId : Option Nat := none
  deriving DecidableEq, Repr

/-- Result dictionary returned by `agent.step`: the `done` flag the
controller inspects, plus an opaque payload standing for the remaining
observation fields. -/
structure StepResult where
  done : Bool
  info : Nat := 0
  deriving DecidableEq, Repr

/-- One record of the episode log `self.ep_log`: either a logged inbound
message or a logged step result. -/
inductive Entry where
  | msg (m : Msg)
  | env (e : StepResult)
  deriving DecidableEq, Repr

/-- Outbound messages written to the websocket pipe. -/
inductive OutMsg where
  | doneSignal
  | frame (data : String) (frameId : Nat)
  | ui (controls : List String)
  | upload (projectId userId file path : Option String) (bucket : Option (Option String))
  deriving DecidableEq, Repr

/-- Externally visible effects of the controller, in program order. -/
inductive Event where
  | send (m : OutMsg)
  | agentReset
  | agentStep (action : Nat)
  | agentRender
  | agentClose
  | fileOpen (path : String)
  | fileClose (path : String)
  | fileWrite (path : String)
  | sleep
  deriving DecidableEq, Repr

/-- The trial section of `.trialConfig.yml` as read through
`self.config.get(...)`.  Keys read with a default in the Python code are
`Option` fields here, with the default applied at the use site, exactly as
`dict.get` does. -/
structure Config where
  actionSpace : List String := []
  allowFrameRateChange : Bool := false
  frameRateStepSize : Option Int := none
  minFrameRate : Option Int := none
  maxFrameRate : Option Int := none
  maxEpisodes : Option Nat := none
  dataFile : Option String := none
  s3upload : Bool := false
  bucket : Option String := none
  projectId : Option String := none
  ui : Option (List String) := none
  deriving DecidableEq, Repr

/-- The mutable fields of the `Trial` object. -/
structure TrialState where
  config : Config
  frameId : Nat := 0
  humanAction : Nat := 0
  episode : Nat := 0
  done : Bool := false
  play : Bool := false
  trial_log : List (List Entry) := []
  ep_log : List Entry := []
  outfile : Option String := none
  framerate : Int := 30
  userId : Option String := none
  filename : Option String := none
  path : Option String := none
  deriving DecidableEq, Repr

/-- Result of one `pipe.poll()`/`pipe.recv()` round: nothing waiting, a
payload that fails to parse as json, or a parsed message. -/
inductive Poll where
  | empty
  | bad
  | good (m : Msg)
  deriving Repr

/-- Streams of external inputs, consumed at explicit cursors. -/
structure World where
  polls : Nat → Poll
  renders : Nat → Option String
  stepResults : Nat → StepResult
  freshIds : Nat → String
  pollIx : Nat := 0
  renderIx : Nat := 0
  stepIx : Nat := 0
  freshIx : Nat := 0

/-- Effectful computations over the trial state: either a new state with
the trace of effects, or a raised Python exception carrying the state at
the raise. -/
abbrev TResult := Except (String × TrialState) (TrialState × List Event)

/-- Python truthiness of `key in message and message[key]` for a string
field: the key is present and its value is non-empty. -/
def truthy : Option String → Bool
  | some s => s != ""
  | none => false

/-- Python `f-string` rendering of a possibly-`None` value. -/
def pyStr : Option String → String
  | some u => u
  | none => "None"

/-- Python `str.lower()` over the character list (list-based so that it
reduces definitionally, unlike `String.map`). -/
def pyLower (s : String) : String := ⟨s.data.map Char.toLower⟩

/-- Python `str.strip()`: drop whitespace from both ends. -/
def pyStrip (s : String) : String :=
  ⟨((s.data.dropWhile Char.isWhitespace).reverse.dropWhile Char.isWhitespace).reverse⟩

/-- Python `str.strip().lower()` as used on every token the dispatcher
normalises. -/
def pyStripLower (s : String) : String := pyLower (pyStrip s)

/-- First index of a string in a list (Python `list.index` guarded by
`in`). -/
def listIndex : List String → String → Option Nat
  | [], _ => none
  | x :: xs, a => if x = a then some 0 else (listIndex xs a).map (· + 1)

/-- Accumulating decimal parse: succeeds only when every character is an
ASCII digit. -/
def digitsToNat : List Char → Nat → Option Nat
  | [], acc => some acc
  | c :: cs, acc =>
    if c.isDigit then digitsToNat cs (acc * 10 + (c.toNat - 48)) else none

/-- Models Python `int()` on an already-stripped string, restricted to an
optional sign followed by ASCII decimal digits; other numerals are treated
as unparseable. -/
def pyParseInt (str : String) : Option Int :=
  match str.data with
  | [] => none
  | c :: cs =>
    if c = '-' then
      match cs with
      | [] => none
      | _ => (digitsToNat cs 0).map (fun n => -(n : Int))
    else if c = '+' then
      match cs with
      | [] => none
      | _ => (digitsToNat cs 0).map (fun n => (n : Int))
    else (digitsToNat (c :: cs) 0).map (fun n => (n : Int))

/-- `Trial.check_trial_done`. -/
def check_trial_done (s : TrialState) : Bool :=
  decide (s.config.maxEpisodes.getD 20 ≤ s.episode)

/-- File name chosen by `Trial.create_file`: one file per trial in trial
mode, one per episode otherwise. -/
def cfFilename (s : TrialState) : String :=
  if s.config.dataFile = some "trial" then "trial_" ++ pyStr s.userId
  else "episode_" ++ toString s.episode ++ "_user_" ++ pyStr s.userId

/-- `Trial.create_file`. -/
def create_file (s : TrialState) : TrialState × List Event :=
  let path := "Trials/" ++ cfFilename s
  ({ s with outfile := some path, filename := some (cfFilename s), path := some path },
   [Event.fileOpen path])

/-- `Trial.save_record`: pickles the whole-trial log to the open file.
Dumping to a missing file raises. -/
def save_record (s : TrialState) : TResult :=
  match s.outfile with
  | none => .error ("dump to missing outfile", s)
  | some p => .ok ({ s with trial_log := [] }, [Event.fileWrite p])

/-- `Trial.save_entry`: in trial mode the episode log is appended to the
in-memory trial log; otherwise it is pickled to the open episode file. -/
def save_entry (s : TrialState) : TResult :=
  if s.config.dataFile = some "trial" then
    .ok ({ s with trial_log := s.trial_log ++ [s.ep_log] }, [])
  else
    match s.outfile with
    | none => .error ("dump to missing outfile", s)
    | some p => .ok ({ s with ep_log := [] }, [Event.fileWrite p])

/-- `Trial.end` (`end` is reserved in Lean). -/
def endTrial (s : TrialState) : TResult :=
  let ev0 := [Event.send OutMsg.doneSignal, Event.agentClose]
  let r1 : TResult :=
    if s.config.dataFile = some "trial" then save_record s else .ok (s, [])
  match r1 with
  | .error e => .error e
  | .ok (s1, ev1) =>
    let ev2 :=
      match s1.outfile with
      | some p =>
        [Event.fileClose p,
         Event.send (OutMsg.upload s1.config.projectId s1.userId s1.filename s1.path none)]
      | none => []
    .ok ({ s1 with play := false, done := true }, ev0 ++ ev1 ++ ev2)

/-- `Trial.reset`. -/
def reset (s : TrialState) : TResult :=
  if check_trial_done s then endTrial s
  else
    let ev1 :=
      match s.outfile with
      | some p =>
        Event.fileClose p ::
          (if s.config.s3upload then
            [Event.send (OutMsg.upload s.config.projectId s.userId s.filename s.path
              (some s.config.bucket))]
          else [])
      | none => []
    let (s1, ev2) := create_file s
    .ok ({ s1 with episode := s1.episode + 1 }, Event.agentReset :: (ev1 ++ ev2))

/-- Default UI control list used when the config has no `ui` key. -/
def defaultUI : List String := ["left", "right", "up", "down", "start", "pause"]

/-- `Trial.send_ui`. -/
def send_ui (s : TrialState) : List Event :=
  [Event.send (OutMsg.ui (s.config.ui.getD defaultUI))]

/-- `Trial.handle_command`: note that the final comparison is against the
mixed-case literal even though `c` has been lowercased, exactly as in the
source. -/
def handle_command (command : String) (s : TrialState) : TResult :=
  let c := pyStripLower command
  if c = "start" then .ok ({ s with play := true }, [])
  else if c = "stop" then endTrial s
  else if c = "reset" then reset s
  else if c = "pause" then .ok ({ s with play := false }, [])
  else if c = "requestUI" then .ok (s, send_ui s)
  else .ok (s, [])

/-- `Trial.handle_framerate_change`. -/
def handle_framerate_change (change : String) (s : TrialState) : TrialState :=
  if s.config.allowFrameRateChange = false then s
  else
    let step := s.config.frameRateStepSize.getD 5
    let minFR := s.config.minFrameRate.getD 1
    let maxFR := s.config.maxFrameRate.getD 90
    let c := pyStripLower change
    if c = "faster" ∧ s.framerate + step < maxFR then
      { s with framerate := s.framerate + step }
    else if c = "slower" ∧ minFR < s.framerate - step then
      { s with framerate := s.framerate - step }
    else
      match pyParseInt c with
      | some requested =>
        if minFR < requested ∧ requested < maxFR then { s with framerate := requested }
        else s
      | none => s

/-- `Trial.handle_action`. -/
def handle_action (action : String) (s : TrialState) : TrialState :=
  let a := pyStripLower action
  let actionCode :=
    match listIndex s.config.actionSpace a with
    | some i => i
    | none => 0
  { s with humanAction := actionCode }

/-- `Trial.update_entry`. -/
def update_entry (e : Entry) (s : TrialState) : TrialState :=
  { s with ep_log := s.ep_log ++ [e] }

/-- Rendered-frame message `{frame: ..., frameId: ...}`. -/
structure RenderMsg where
  frame : String
  frameId : Nat
  deriving DecidableEq, Repr

/-- Message of the `TypeError` raised when conversion or encoding of the
render buffer fails. -/
def renderFailMsg : String := "Render failed"

/-- `Trial.get_render`: the agent render buffer is consumed from the world;
`none` models a buffer the image conversion/encoding rejects, in which case
the call raises before `frameId` is touched. -/
def get_render (w : World) (s : TrialState) :
    Except (String × TrialState) (World × TrialState × RenderMsg × List Event) :=
  match w.renders w.renderIx with
  | none => .error (renderFailMsg, s)
  | some f =>
    let w1 := { w with renderIx := w.renderIx + 1 }
    let s1 := { s with frameId := s.frameId + 1 }
    .ok (w1, s1, { frame := f, frameId := s1.frameId }, [Event.agentRender])

/-- `Trial.send_render`. -/
def send_render (r : RenderMsg) : List Event :=
  [Event.send (OutMsg.frame r.frame r.frameId)]

/-- The synthetic record produced when json parsing of an inbound payload
fails. -/
def errMsg (fid : Nat) : Msg :=
  { error := some "unable to parse message", frameId := some fid }

/-- `Trial.check_message`. -/
def check_message (w : World) (s : TrialState) : Option Msg × World :=
  let w1 := { w with pollIx := w.pollIx + 1 }
  match w.polls w.pollIx with
  | Poll.empty => (none, w1)
  | Poll.bad => (some (errMsg s.frameId), w1)
  | Poll.good m => (some m, w1)

/-- `Trial.take_step`. -/
def take_step (w : World) (s : TrialState) :
    Except (String × TrialState) (World × TrialState × List Event) :=
  let envState := w.stepResults w.stepIx
  let w1 := { w with stepIx := w.stepIx + 1 }
  let ev0 := [Event.agentStep s.humanAction]
  let s1 := update_entry (Entry.env envState) s
  if envState.done then
    match save_entry s1 with
    | .error e => .error e
    | .ok (s2, ev1) =>
      match reset s2 with
      | .error e => .error e
      | .ok (s3, ev2) => .ok (w1, s3, ev0 ++ ev1 ++ ev2)
  else .ok (w1, s1, ev0)

/-- Identification branch at the top of `Trial.handle_message`: adopt a
userId (generating a synthetic one when the supplied value is empty), send
the UI, reset, and send an immediate frame. -/
def identify (m : Msg) (w : World) (s : TrialState) :
    Except (String × TrialState) (World × TrialState × List Event) :=
  match s.userId, m.userId with
  | none, some v =>
    let uid := if v = "" then "user_" ++ w.freshIds w.freshIx else v
    let w1 := if v = "" then { w with freshIx := w.freshIx + 1 } else w
    let s1 := { s with userId := some uid }
    let ev0 := send_ui s1
    match reset s1 with
    | .error e => .error e
    | .ok (s2, ev1) =>
      match get_render w1 s2 with
      | .error e => .error e
      | .ok (w2, s3, r, ev2) =>
        .ok (w2, s3, ev0 ++ ev1 ++ ev2 ++ send_render r)
  | _, _ => .ok (w, s, [])

/-- Command / frame-rate / action dispatch of `Trial.handle_message`,
with Python truthiness on each field. -/
def dispatch_fields (m : Msg) (s : TrialState) : TResult :=
  if truthy m.command then handle_command (m.command.getD "") s
  else if truthy m.changeFrameRate then
    .ok (handle_framerate_change (m.changeFrameRate.getD "") s, [])
  else if truthy m.action then .ok (handle_action (m.action.getD "") s, [])
  else .ok (s, [])

/-- `Trial.handle_message`. -/
def handle_message (m : Msg) (w : World) (s : TrialState) :
    Except (String × TrialState) (World × TrialState × List Event) :=
  match identify m w s with
  | .error e => .error e
  | .ok (w1, s1, ev1) =>
    match dispatch_fields m s1 with
    | .error e => .error e
    | .ok (s2, ev2) => .ok (w1, update_entry (Entry.msg m) s2, ev1 ++ ev2)

/-- Render/send/step phase of one loop iteration, executed when `play` is
set (`if self.play:` in `Trial.run`). -/
def play_phase (w : World) (s : TrialState) :
    Except (String × TrialState) (World × TrialState × List Event) :=
  if s.play then
    match get_render w s with
    | .error e => .error e
    | .ok (w3, s2, r, ev2) =>
      match take_step w3 s2 with
      | .error e => .error e
      | .ok (w4, s3, ev3) => .ok (w4, s3, ev2 ++ send_render r ++ ev3)
  else .ok (w, s, [])

/-- `Trial.run`, fuel-bounded: each unit of fuel is one iteration of the
`while not self.done` loop. -/
def run : Nat → World → TrialState →
    Except (String × TrialState) (World × TrialState × List Event)
  | 0, w, s => .ok (w, s, [])
  | Nat.succ fuel, w, s =>
    if s.done then .ok (w, s, [])
    else
      let (mOpt, w1) := check_message w s
      let r1 : Except (String × TrialState) (World × TrialState × List Event) :=
        match mOpt with
        | some m => handle_message m w1 s
        | none => .ok (w1, s, [])
      match r1 with
      | .error e => .error e
      | .ok (w2, s1, ev1) =>
        match play_phase w2 s1 with
        | .error e => .error e
        | .ok (w5, s4, ev4) =>
          match run fuel w5 s4 with
          | .error e => .error e
          | .ok (w6, s5, ev5) => .ok (w6, s5, ev1 ++ ev4 ++ (Event.sleep :: ev5))

/-- Telemetry path used in whole-trial logging mode for user `u`. -/
def trialPath (u : String) : String := "Trials/" ++ ("trial_" ++ u)

/-- Number of telemetry file writes (pickle dumps) in a trace. -/
def writes : List Event → Nat
  | [] => 0
  | Event.fileWrite _ :: es => writes es + 1
  | _ :: es => writes es

/-- Every file opened in the trace is the file at path `p`. -/
def opensOnly (p : String) : List Event → Bool
  | [] => true
  | Event.fileOpen q :: es => q == p && opensOnly p es
  | _ :: es => opensOnly p es

/-- Modelled from the spec's words (for comparison with `handle_action`):
a case-insensitive lookup of the trimmed action string in the configured
action space, lowercasing both sides. -/
def specCiIndex (space : List String) (a : String) : Option Nat :=
  listIndex (space.map pyLower) (pyStripLower a)

/-- Concrete configuration used by witness states. -/
def cW : Config :=
  { actionSpace := ["noop", "left", "right"], allowFrameRateChange := true }

/-- Concrete identified session state used by witnesses. -/
def sW : TrialState := { config := cW, userId := some "u1" }

/-- Concrete world whose streams always succeed. -/
def wW : World :=
  { polls := fun _ => Poll.empty
    renders := fun _ => some "IMG"
    stepResults := fun _ => { done := false }
    freshIds := fun _ => "fresh" }

/-- World whose next poll yields an unparseable payload. -/
def wBad : World := { wW with polls := fun _ => Poll.bad }

/-- World whose render buffers are rejected by the encoder. -/
def wNoRender : World := { wW with renders := fun _ => none }

/-- Session state whose config disallows frame-rate changes. -/
def sNoFR : TrialState := { config := { actionSpace := ["noop"] } }

/-- Session state already at the episode limit. -/
def sMax : TrialState := { config := cW, userId := some "u1", episode := 25 }

/-- Counterexample message carrying a present-but-empty command together
with an action. -/
def m5cex : Msg := { command := some "", action := some "left" }

/-- Message carrying only a frame-rate change. -/
def mFR : Msg := { changeFrameRate := some "faster" }

/-- State whose action space contains a capitalised action name. -/
def s7cex : TrialState := { config := { actionSpace := ["noop", "Left"] } }

/-- Trial-mode state used by the logging witness. -/
def s9 : TrialState :=
  { config := { actionSpace := ["noop"], dataFile := some "trial", maxEpisodes := some 0 }
    userId := some "u"
    outfile := some (trialPath "u")
    filename := some "trial_u"
    path := some (trialPath "u") }

/-- World delivering a single `stop` command. -/
def w9 : World := { wW with polls := fun _ => Poll.good { command := some "stop" } }

/-- World state after the logging-witness run consumed one poll. -/
def w9f : World := { w9 with pollIx := 1 }

/-- Trial state after the logging-witness run: the stop command was logged
and the trial ended. -/
def s9f : TrialState := { s9 with done := true, ep_log := [Entry.msg { command := some "stop" }] }

/-- Effect trace of the logging-witness run: one flush of the single
per-trial file, at End. -/
def ev9 : List Event :=
  [Event.send OutMsg.doneSignal, Event.agentClose, Event.fileWrite (trialPath "u"),
   Event.fileClose (trialPath "u"),
   Event.send (OutMsg.upload none (some "u") (some "trial_u") (some (trialPath "u")) none),
   Event.sleep]

/-- State reached after `endTrial` from the witness state `sW`. -/
def sEnd : TrialState := { sW with play := false, done := true }

theorem writes_append (a b : List Event) : writes (a ++ b) = writes a + writes b := by
  induction a with
  | nil => simp [writes]
  | cons e es ih => cases e <;> simp [writes, ih] <;> omega

theorem opensOnly_append (p : String) (a b : List Event) :
    opensOnly p (a ++ b) = (opensOnly p a && opensOnly p b) := by
  induction a with
  | nil => simp [opensOnly]
  | cons e es ih => cases e <;> simp [opensOnly, ih, Bool.and_assoc]

theorem run_done (fuel : Nat) (w : World) (s : TrialState) (h : s.done = true) :
    run fuel w s = .ok (w, s, []) := by
  cases fuel with
  | zero => rfl
  | succ n => simp [run, h]

/-- C2: sending the command `requestUI` does not cause the UI descriptor to
be sent: the lowercased command can never equal the mixed-case literal
`requestUI` the code compares against, so the branch is dead and the
command is a no-op for every session state. -/
theorem requestUI_command_is_dead (s : TrialState) :
    handle_command "requestUI" s = .ok (s, []) := by
  have h : pyStripLower "requestUI" = "requestui" := by decide
  simp [handle_command, h]

/-- C8: whenever the config disallows frame-rate change,
`handle_framerate_change` returns the state unchanged, for every input
token. -/
theorem framerate_change_disallowed (change : String) (s : TrialState)
    (h : s.config.allowFrameRateChange = false) :
    handle_framerate_change change s = s := by
  simp [handle_framerate_change, h]

theorem framerate_change_disallowed_witness :
    sNoFR.config.allowFrameRateChange = false ∧
    handle_framerate_change "faster" sNoFR = sNoFR ∧
    handle_framerate_change "13" sNoFR = sNoFR :=
  ⟨rfl, framerate_change_disallowed "faster" sNoFR rfl,
   framerate_change_disallowed "13" sNoFR rfl⟩

/-- C10: `get_render` raises without touching `frameId` when the render
buffer cannot be converted and encoded, and on success increments `frameId`
exactly once, stamping the outgoing frame with the incremented value. -/
theorem get_render_spec (w : World) (s : TrialState) :
    (w.renders w.renderIx = none → get_render w s = .error (renderFailMsg, s)) ∧
    (∀ f, w.renders w.renderIx = some f →
      get_render w s =
        .ok ({ w with renderIx := w.renderIx + 1 }, { s with frameId := s.frameId + 1 },
          { frame := f, frameId := s.frameId + 1 }, [Event.agentRender])) := by
  constructor
  · intro h
    simp [get_render, h]
  · intro f h
    simp [get_render, h]

theorem get_render_spec_witness :
    wNoRender.renders wNoRender.renderIx = none ∧
    get_render wNoRender sW = .error (renderFailMsg, sW) ∧
    wW.renders wW.renderIx = some "IMG" ∧
    get_render wW sW =
      .ok ({ wW with renderIx := wW.renderIx + 1 }, { sW with frameId := sW.frameId + 1 },
        { frame := "IMG", frameId := sW.frameId + 1 }, [Event.agentRender]) :=
  ⟨rfl, (get_render_spec wNoRender sW).1 rfl, rfl, (get_render_spec wW sW).2 "IMG" rfl⟩

/-- C3: an inbound payload that fails to parse is converted by
`check_message` into the synthetic record with the current `frameId`;
dispatching that record through `handle_message` never raises and appends
it to the episode log. -/
theorem parse_failure_recorded (w : World) (s : TrialState)
    (h : w.polls w.pollIx = Poll.bad) :
    check_message w s = (some (errMsg s.frameId), { w with pollIx := w.pollIx + 1 }) ∧
    ∀ w2, handle_message (errMsg s.frameId) w2 s =
      .ok (w2, { s with ep_log := s.ep_log ++ [Entry.msg (errMsg s.frameId)] }, []) := by
  constructor
  · simp [check_message, h]
  · intro w2
    cases hu : s.userId <;>
      simp [handle_message, identify, hu, errMsg, dispatch_fields, truthy, update_entry]

theorem parse_failure_recorded_witness :
    wBad.polls wBad.pollIx = Poll.bad ∧
    check_message wBad sW = (some (errMsg sW.frameId), { wBad with pollIx := wBad.pollIx + 1 }) ∧
    handle_message (errMsg sW.frameId) wW sW =
      .ok (wW, { sW with ep_log := sW.ep_log ++ [Entry.msg (errMsg sW.frameId)] }, []) :=
  ⟨rfl, (parse_failure_recorded wBad sW rfl).1, (parse_failure_recorded wBad sW rfl).2 wW⟩

theorem endTrial_ok (s s2 : TrialState) (ev : List Event) (h : endTrial s = .ok (s2, ev)) :
    s2 = { s with play := false, done := true,
                  trial_log := if s.config.dataFile = some "trial" then [] else s.trial_log } ∧
    (s.config.dataFile = some "trial" → ∃ p, s.outfile = some p) ∧
    ev = [Event.send OutMsg.doneSignal, Event.agentClose]
        ++ (if s.config.dataFile = some "trial" then
              match s.outfile with
              | some p => [Event.fileWrite p]
              | none => []
            else [])
        ++ (match s.outfile with
            | some p =>
              [Event.fileClose p,
               Event.send (OutMsg.upload s.config.projectId s.userId s.filename s.path none)]
            | none => []) := by
  unfold endTrial save_record at h
  by_cases hd : s.config.dataFile = some "trial" <;>
    cases ho : s.outfile <;>
      simp only [hd, ho, if_true, if_false, ite_true, ite_false] at h ⊢ <;>
        simp_all

theorem reset_ok_lt (s : TrialState) (hct : check_trial_done s = false) :
    reset s = .ok ({ s with
                     episode := s.episode + 1,
                     outfile := some ("Trials/" ++ cfFilename s),
                     filename := some (cfFilename s),
                     path := some ("Trials/" ++ cfFilename s) },
      Event.agentReset ::
        ((match s.outfile with
          | some p =>
            Event.fileClose p ::
              (if s.config.s3upload then
                [Event.send (OutMsg.upload s.config.projectId s.userId s.filename s.path
                  (some s.config.bucket))]
              else [])
          | none => []) ++ [Event.fileOpen ("Trials/" ++ cfFilename s)])) := by
  cases ho : s.outfile <;> simp [reset, hct, create_file, ho]

theorem reset_ok_fields (s s2 : TrialState) (ev : List Event) (h : reset s = .ok (s2, ev)) :
    s2.framerate = s.framerate ∧ s2.humanAction = s.humanAction ∧
    s2.config = s.config ∧ s2.userId = s.userId ∧ s2.frameId = s.frameId := by
  by_cases hct : check_trial_done s = true
  · have h2 : endTrial s = .ok (s2, ev) := by
      rw [← h]; simp [reset, hct]
    obtain ⟨hs2, -, -⟩ := endTrial_ok s s2 ev h2
    subst hs2; simp
  · rw [reset_ok_lt s (by simpa using hct)] at h
    simp only [Except.ok.injEq, Prod.mk.injEq] at h
    obtain ⟨h1, -⟩ := h
    subst h1; simp

/-- C4: after `endTrial` succeeds, `play` is false and `done` is true, and
the main loop performs no further iterations: from the terminal state `run`
returns immediately with an empty effect trace for every fuel and every
world of pending messages, so no step or render side effects can follow. -/
theorem end_terminal (s s2 : TrialState) (ev : List Event)
    (h : endTrial s = .ok (s2, ev)) :
    s2.play = false ∧ s2.done = true ∧
    ∀ fuel w, run fuel w s2 = .ok (w, s2, []) := by
  obtain ⟨hs2, -, -⟩ := endTrial_ok s s2 ev h
  subst hs2
  exact ⟨rfl, rfl, fun fuel w => run_done fuel w _ rfl⟩

theorem end_terminal_witness :
    sEnd.play = false ∧ sEnd.done = true ∧ run 5 wW sEnd = .ok (wW, sEnd, []) := by
  have h := end_terminal sW sEnd [Event.send OutMsg.doneSignal, Event.agentClose] rfl
  exact ⟨h.1, h.2.1, h.2.2 5 wW⟩

/-- C1: when the completed-episode count has reached the configured
maximum, `reset` delegates to `endTrial`, performing no environment reset
and no episode increment; otherwise it resets the environment, rotates the
telemetry file (closing the open one and opening a fresh one), increments
`episode` by exactly 1 and leaves `frameId` unchanged. -/
theorem reset_spec (s : TrialState) :
    (s.config.maxEpisodes.getD 20 ≤ s.episode →
      reset s = endTrial s ∧
      ∀ s2 ev, reset s = .ok (s2, ev) →
        Event.agentReset ∉ ev ∧ s2.episode = s.episode) ∧
    (s.episode < s.config.maxEpisodes.getD 20 →
      ∃ s2 ev, reset s = .ok (s2, ev) ∧
        Event.agentReset ∈ ev ∧ (∃ q, Event.fileOpen q ∈ ev) ∧
        (∀ p, s.outfile = some p → Event.fileClose p ∈ ev) ∧
        s2.episode = s.episode + 1 ∧ s2.frameId = s.frameId) := by
  constructor
  · intro hmax
    have hct : check_trial_done s = true := by simp [check_trial_done, hmax]
    have heq : reset s = endTrial s := by simp [reset, hct]
    refine ⟨heq, fun s2 ev h => ?_⟩
    rw [heq] at h
    obtain ⟨hs2, -, hev⟩ := endTrial_ok s s2 ev h
    subst hs2
    constructor
    · subst hev
      by_cases hd : s.config.dataFile = some "trial" <;>
        cases ho : s.outfile <;> simp [hd, ho]
    · simp
  · intro hlt
    have hct : check_trial_done s = false := by
      simp [check_trial_done]
      omega
    refine ⟨_, _, reset_ok_lt s hct, ?_, ?_, ?_, by simp, by simp⟩
    · simp
    · exact ⟨"Trials/" ++ cfFilename s, by simp⟩
    · intro p hp
      simp [hp]

/-- C6: with frame-rate changes allowed, `faster` adds the configured step
only when the result stays strictly below the maximum, `slower` subtracts
it only when the result stays strictly above the minimum, a numeric token
is adopted as an absolute target only strictly inside the bounds, and every
other or invalid token leaves the state unchanged. -/
theorem framerate_change_spec (change : String) (s : TrialState)
    (hallow : s.config.allowFrameRateChange = true) :
    (pyStripLower change = "faster" →
      (s.framerate + s.config.frameRateStepSize.getD 5 < s.config.maxFrameRate.getD 90 →
        (handle_framerate_change change s).framerate
            = s.framerate + s.config.frameRateStepSize.getD 5 ∧
        (handle_framerate_change change s).framerate < s.config.maxFrameRate.getD 90) ∧
      (¬ s.framerate + s.config.frameRateStepSize.getD 5 < s.config.maxFrameRate.getD 90 →
        handle_framerate_change change s = s)) ∧
    (pyStripLower change = "slower" →
      (s.config.minFrameRate.getD 1 < s.framerate - s.config.frameRateStepSize.getD 5 →
        (handle_framerate_change change s).framerate
            = s.framerate - s.config.frameRateStepSize.getD 5 ∧
        s.config.minFrameRate.getD 1 < (handle_framerate_change change s).framerate) ∧
      (¬ s.config.minFrameRate.getD 1 < s.framerate - s.config.frameRateStepSize.getD 5 →
        handle_framerate_change change s = s)) ∧
    (pyStripLower change ≠ "faster" → pyStripLower change ≠ "slower" →
      match pyParseInt (pyStripLower change) with
      | some v =>
        (s.config.minFrameRate.getD 1 < v ∧ v < s.config.maxFrameRate.getD 90 →
          (handle_framerate_change change s).framerate = v) ∧
        (¬ (s.config.minFrameRate.getD 1 < v ∧ v < s.config.maxFrameRate.getD 90) →
          handle_framerate_change change s = s)
      | none => handle_framerate_change change s = s) := by
  refine ⟨?_, ?_, ?_⟩
  · intro hc
    constructor
    · intro hlt
      simp [handle_framerate_change, hallow, hc, hlt]
    · intro hge
      have hparse : pyParseInt "faster" = none := by decide
      simp [handle_framerate_change, hallow, hc, hge, hparse]
  · intro hc
    constructor
    · intro hlt
      simp [handle_framerate_change, hallow, hc, hlt]
    · intro hge
      have hparse : pyParseInt "slower" = none := by decide
      simp [handle_framerate_change, hallow, hc, hge, hparse]
  · intro hf hs
    cases hp : pyParseInt (pyStripLower change) with
    | some v =>
      constructor
      · intro hin
        simp [handle_framerate_change, hallow, hf, hs, hp, hin.1, hin.2]
      · intro hout
        simp only [handle_framerate_change, hallow]
        simp [hf, hs, hp, hout]
    | none =>
      simp [handle_framerate_change, hallow, hf, hs, hp]

theorem framerate_change_spec_witness :
    sW.config.allowFrameRateChange = true ∧
    (handle_framerate_change "faster" sW).framerate = 35 ∧
    (handle_framerate_change "50" sW).framerate = 50 ∧
    handle_framerate_change "90" sW = sW := by
  refine ⟨rfl, ?_, ?_, ?_⟩
  · have h := (((framerate_change_spec "faster" sW rfl).1 (by decide)).1 (by decide)).1
    exact h.trans (by decide)
  · exact ((framerate_change_spec "50" sW rfl).2.2 (by decide) (by decide)).1 (by decide)
  · exact ((framerate_change_spec "90" sW rfl).2.2 (by decide) (by decide)).2 (by decide)

theorem hfc_fields (c : String) (s : TrialState) :
    (handle_framerate_change c s).config = s.config ∧
    (handle_framerate_change c s).humanAction = s.humanAction ∧
    (handle_framerate_change c s).done = s.done ∧
    (handle_framerate_change c s).play = s.play ∧
    (handle_framerate_change c s).userId = s.userId ∧
    (handle_framerate_change c s).episode = s.episode ∧
    (handle_framerate_change c s).frameId = s.frameId := by
  unfold handle_framerate_change
  by_cases h1 : s.config.allowFrameRateChange = false
  · simp [h1]
  · rw [if_neg h1]
    by_cases h2 : pyStripLower c = "faster" ∧
        s.framerate + s.config.frameRateStepSize.getD 5 < s.config.maxFrameRate.getD 90
    · simp [if_pos h2]
    · rw [if_neg h2]
      by_cases h3 : pyStripLower c = "slower" ∧
          s.config.minFrameRate.getD 1 < s.framerate - s.config.frameRateStepSize.getD 5
      · simp [if_pos h3]
      · rw [if_neg h3]
        cases hp : pyParseInt (pyStripLower c) with
        | none => simp [hp]
        | some v =>
          simp only [hp]
          by_cases h4 : s.config.minFrameRate.getD 1 < v ∧ v < s.config.maxFrameRate.getD 90
          · simp [if_pos h4]
          · simp [if_neg h4]

theorem handle_command_fields (cmd : String) (s s2 : TrialState) (ev : List Event)
    (h : handle_command cmd s = .ok (s2, ev)) :
    s2.framerate = s.framerate ∧ s2.humanAction = s.humanAction ∧
    s2.config = s.config ∧ s2.userId = s.userId := by
  unfold handle_command at h
  simp only [] at h
  split_ifs at h
  · simp only [Except.ok.injEq, Prod.mk.injEq] at h
    obtain ⟨h1, -⟩ := h
    subst h1; simp
  · obtain ⟨hs2, -, -⟩ := endTrial_ok s s2 ev h
    subst hs2; simp
  · have := reset_ok_fields s s2 ev h
    exact ⟨this.1, this.2.1, this.2.2.1, this.2.2.2.1⟩
  · simp only [Except.ok.injEq, Prod.mk.injEq] at h
    obtain ⟨h1, -⟩ := h
    subst h1; simp
  · simp only [Except.ok.injEq, Prod.mk.injEq] at h
    obtain ⟨h1, -⟩ := h
    subst h1; simp
  · simp only [Except.ok.injEq, Prod.mk.injEq] at h
    obtain ⟨h1, -⟩ := h
    subst h1; simp

theorem identify_fields (m : Msg) (w w2 : World) (s s2 : TrialState) (ev : List Event)
    (h : identify m w s = .ok (w2, s2, ev)) :
    s2.framerate = s.framerate ∧ s2.humanAction = s.humanAction ∧ s2.config = s.config := by
  unfold identify at h
  cases hu : s.userId with
  | some u =>
    rw [hu] at h
    simp only [Except.ok.injEq, Prod.mk.injEq] at h
    obtain ⟨-, h1, -⟩ := h
    subst h1; exact ⟨rfl, rfl, rfl⟩
  | none =>
    rw [hu] at h
    cases hm : m.userId with
    | none =>
      rw [hm] at h
      simp only [Except.ok.injEq, Prod.mk.injEq] at h
      obtain ⟨-, h1, -⟩ := h
      subst h1; exact ⟨rfl, rfl, rfl⟩
    | some v =>
      rw [hm] at h
      simp only [] at h
      set s1 : TrialState :=
        { s with userId := some (if v = "" then "user_" ++ w.freshIds w.freshIx else v) } with hs1
      cases hr : reset s1 with
      | error e => rw [hr] at h; simp at h
      | ok r =>
        obtain ⟨sr, evr⟩ := r
        rw [hr] at h
        simp only [] at h
        have hrf := reset_ok_fields s1 sr evr hr
        cases hg : get_render (if v = "" then { w with freshIx := w.freshIx + 1 } else w) sr with
        | error e => rw [hg] at h; simp at h
        | ok g =>
          obtain ⟨wg, sg, rg, evg⟩ := g
          rw [hg] at h
          simp only [Except.ok.injEq, Prod.mk.injEq] at h
          obtain ⟨-, h1, -⟩ := h
          subst h1
          unfold get_render at hg
          cases hb : (if v = "" then { w with freshIx := w.freshIx + 1 } else w).renders
              (if v = "" then { w with freshIx := w.freshIx + 1 } else w).renderIx with
          | none => rw [hb] at hg; simp at hg
          | some f =>
            rw [hb] at hg
            simp only [Except.ok.injEq, Prod.mk.injEq] at hg
            obtain ⟨-, h2, -⟩ := hg
            subst h2
            simp only [hs1] at hrf
            exact ⟨hrf.1, hrf.2.1, hrf.2.2.1⟩

theorem hfc_framerate_congr (c : String) (s t : TrialState)
    (hc : s.config = t.config) (hf : s.framerate = t.framerate) :
    (handle_framerate_change c s).framerate = (handle_framerate_change c t).framerate := by
  unfold handle_framerate_change
  rw [hc, hf]
  by_cases h1 : t.config.allowFrameRateChange = false
  · simp [h1, hf]
  · rw [if_neg h1, if_neg h1]
    by_cases h2 : pyStripLower c = "faster" ∧
        t.framerate + t.config.frameRateStepSize.getD 5 < t.config.maxFrameRate.getD 90
    · simp [if_pos h2]
    · rw [if_neg h2, if_neg h2]
      by_cases h3 : pyStripLower c = "slower" ∧
          t.config.minFrameRate.getD 1 < t.framerate - t.config.frameRateStepSize.getD 5
      · simp [if_pos h3]
      · rw [if_neg h3, if_neg h3]
        cases hp : pyParseInt (pyStripLower c) with
        | none => simp [hp, hf]
        | some v =>
          simp only [hp]
          by_cases h4 : t.config.minFrameRate.getD 1 < v ∧ v < t.config.maxFrameRate.getD 90
          · simp [if_pos h4]
          · simp [if_neg h4, hf]

theorem handle_action_humanAction_congr (a : String) (s t : TrialState)
    (hc : s.config = t.config) :
    (handle_action a s).humanAction = (handle_action a t).humanAction := by
  simp [handle_action, hc]

/-- C5 (amended): the command, frame-rate-change and action fields are
checked in that priority order, where a field counts only when present with
a non-empty value; only the first such field is acted upon and the other
two kinds of field leave their targets (`framerate`, `humanAction`)
untouched. -/
theorem dispatch_priority (m : Msg) (w w2 : World) (s s2 : TrialState) (ev : List Event)
    (h : handle_message m w s = .ok (w2, s2, ev)) :
    (truthy m.command = true →
      s2.framerate = s.framerate ∧ s2.humanAction = s.humanAction) ∧
    (truthy m.command = false → truthy m.changeFrameRate = true →
      s2.humanAction = s.humanAction ∧
      s2.framerate = (handle_framerate_change (m.changeFrameRate.getD "") s).framerate) ∧
    (truthy m.command = false → truthy m.changeFrameRate = false → truthy m.action = true →
      s2.framerate = s.framerate ∧
      s2.humanAction = (handle_action (m.action.getD "") s).humanAction) ∧
    (truthy m.command = false → truthy m.changeFrameRate = false → truthy m.action = false →
      s2.framerate = s.framerate ∧ s2.humanAction = s.humanAction) := by
  unfold handle_message at h
  cases hi : identify m w s with
  | error e => rw [hi] at h; simp at h
  | ok r1 =>
    obtain ⟨w1, s1, ev1⟩ := r1
    rw [hi] at h
    simp only [] at h
    have hpres := identify_fields m w w1 s s1 ev1 hi
    cases hd : dispatch_fields m s1 with
    | error e => rw [hd] at h; simp at h
    | ok rd =>
      obtain ⟨sd, evd⟩ := rd
      rw [hd] at h
      simp only [Except.ok.injEq, Prod.mk.injEq] at h
      obtain ⟨-, h2, -⟩ := h
      subst h2
      unfold dispatch_fields at hd
      by_cases hcm : truthy m.command = true
      · rw [if_pos hcm] at hd
        have hcf := handle_command_fields (m.command.getD "") s1 sd evd hd
        refine ⟨fun _ => ?_, ?_, ?_, ?_⟩
        · exact ⟨by simp [update_entry, hcf.1, hpres.1],
                 by simp [update_entry, hcf.2.1, hpres.2.1]⟩
        · intro hc2; rw [hcm] at hc2; exact absurd hc2 (by simp)
        · intro hc2; rw [hcm] at hc2; exact absurd hc2 (by simp)
        · intro hc2; rw [hcm] at hc2; exact absurd hc2 (by simp)
      · have hcm2 : truthy m.command = false := by
          cases hx : truthy m.command
          · rfl
          · exact absurd hx hcm
        rw [if_neg (by simp [hcm2])] at hd
        by_cases hfr : truthy m.changeFrameRate = true
        · rw [if_pos hfr] at hd
          simp only [Except.ok.injEq, Prod.mk.injEq] at hd
          obtain ⟨hd1, -⟩ := hd
          subst hd1
          refine ⟨fun hx => absurd hx (by simp [hcm2]), fun _ _ => ?_, ?_, ?_⟩
          · constructor
            · simp [update_entry, (hfc_fields (m.changeFrameRate.getD "") s1).2.1, hpres.2.1]
            · simp only [update_entry]
              exact hfc_framerate_congr (m.changeFrameRate.getD "") s1 s hpres.2.2 hpres.1
          · intro hx1 hx2; rw [hfr] at hx2; exact absurd hx2 (by simp)
          · intro hx1 hx2; rw [hfr] at hx2; exact absurd hx2 (by simp)
        · have hfr2 : truthy m.changeFrameRate = false := by
            cases hx : truthy m.changeFrameRate
            · rfl
            · exact absurd hx hfr
          rw [if_neg (by simp [hfr2])] at hd
          by_cases hac : truthy m.action = true
          · rw [if_pos hac] at hd
            simp only [Except.ok.injEq, Prod.mk.injEq] at hd
            obtain ⟨hd1, -⟩ := hd
            subst hd1
            refine ⟨fun hx => absurd hx (by simp [hcm2]), ?_, fun _ _ _ => ?_, ?_⟩
            · intro hx1 hx2; rw [hfr2] at hx2; exact absurd hx2 (by simp)
            · constructor
              · simp [update_entry, handle_action, hpres.1]
              · simp only [update_entry]
                exact handle_action_humanAction_congr (m.action.getD "") s1 s hpres.2.2
            · intro hx1 hx2 hx3; rw [hac] at hx3; exact absurd hx3 (by simp)
          · have hac2 : truthy m.action = false := by
              cases hx : truthy m.action
              · rfl
              · exact absurd hx hac
            rw [if_neg (by simp [hac2])] at hd
            simp only [Except.ok.injEq, Prod.mk.injEq] at hd
            obtain ⟨hd1, -⟩ := hd
            subst hd1
            refine ⟨fun hx => absurd hx (by simp [hcm2]), ?_, ?_, fun _ _ _ => ?_⟩
            · intro hx1 hx2; rw [hfr2] at hx2; exact absurd hx2 (by simp)
            · intro hx1 hx2 hx3; rw [hac2] at hx3; exact absurd hx3 (by simp)
            · exact ⟨by simp [update_entry, hpres.1], by simp [update_entry, hpres.2.1]⟩

/-- C5 counterexample: in a message carrying both a present-but-empty
`command` field and an `action` field, the command field (the first present
field of the three) is not the one acted upon: the action field changes
`humanAction`, so a later present field does have an effect. -/
theorem dispatch_priority_cex :
    m5cex.command.isSome = true ∧ m5cex.action.isSome = true ∧
    handle_message m5cex wW sW =
      .ok (wW, { sW with humanAction := 1, ep_log := [Entry.msg m5cex] }, []) ∧
    (1 : Nat) ≠ sW.humanAction := by
  exact ⟨rfl, rfl, rfl, by decide⟩

theorem dispatch_priority_witness :
    truthy mFR.command = false ∧ truthy mFR.changeFrameRate = true ∧
    (update_entry (Entry.msg mFR) (handle_framerate_change "faster" sW)).humanAction
        = sW.humanAction ∧
    (update_entry (Entry.msg mFR) (handle_framerate_change "faster" sW)).framerate
        = (handle_framerate_change (mFR.changeFrameRate.getD "") sW).framerate := by
  have h := dispatch_priority mFR wW wW sW
    (update_entry (Entry.msg mFR) (handle_framerate_change "faster" sW)) [] rfl
  exact ⟨rfl, rfl, (h.2.1 rfl rfl).1, (h.2.1 rfl rfl).2⟩

theorem save_entry_fields (s s2 : TrialState) (ev : List Event)
    (h : save_entry s = .ok (s2, ev)) :
    s2.humanAction = s.humanAction ∧ s2.framerate = s.framerate ∧ s2.config = s.config ∧
    s2.userId = s.userId ∧ s2.done = s.done ∧ s2.play = s.play ∧ s2.episode = s.episode := by
  unfold save_entry at h
  split_ifs at h
  · simp only [Except.ok.injEq, Prod.mk.injEq] at h
    obtain ⟨h1, -⟩ := h
    subst h1; simp
  · cases ho : s.outfile <;> rw [ho] at h
    · simp at h
    · simp only [Except.ok.injEq, Prod.mk.injEq] at h
      obtain ⟨h1, -⟩ := h
      subst h1; simp

theorem take_step_fields (w w2 : World) (s s2 : TrialState) (ev : List Event)
    (h : take_step w s = .ok (w2, s2, ev)) :
    s2.humanAction = s.humanAction ∧ s2.framerate = s.framerate ∧
    s2.config = s.config ∧ s2.userId = s.userId := by
  unfold take_step at h
  simp only [] at h
  by_cases hd : (w.stepResults w.stepIx).done
  · rw [if_pos hd] at h
    cases hs : save_entry (update_entry (Entry.env (w.stepResults w.stepIx)) s) with
    | error e => rw [hs] at h; simp at h
    | ok rs =>
      obtain ⟨ss, evs⟩ := rs
      rw [hs] at h
      simp only [] at h
      have h1 := save_entry_fields _ ss evs hs
      cases hr : reset ss with
      | error e => rw [hr] at h; simp at h
      | ok rr =>
        obtain ⟨sr, evr⟩ := rr
        rw [hr] at h
        simp only [] at h
        have h2 := reset_ok_fields ss sr evr hr
        simp only [Except.ok.injEq, Prod.mk.injEq] at h
        obtain ⟨-, hsub, -⟩ := h
        subst hsub
        simp only [update_entry] at h1
        exact ⟨h2.2.1.trans h1.1, h2.1.trans h1.2.1,
               h2.2.2.1.trans h1.2.2.1, h2.2.2.2.1.trans h1.2.2.2.1⟩
  · rw [if_neg hd] at h
    simp only [Except.ok.injEq, Prod.mk.injEq] at h
    obtain ⟨-, hsub, -⟩ := h
    subst hsub
    exact ⟨rfl, rfl, rfl, rfl⟩

theorem hm_humanAction (m : Msg) (w w2 : World) (t t2 : TrialState) (ev : List Event)
    (h : handle_message m w t = .ok (w2, t2, ev))
    (hsk : truthy m.command = true ∨ truthy m.changeFrameRate = true ∨
      truthy m.action = false) :
    t2.humanAction = t.humanAction := by
  unfold handle_message at h
  cases hi : identify m w t with
  | error e => rw [hi] at h; simp at h
  | ok r1 =>
    obtain ⟨w1, s1, ev1⟩ := r1
    rw [hi] at h
    simp only [] at h
    have hpres := identify_fields m w w1 t s1 ev1 hi
    cases hd : dispatch_fields m s1 with
    | error e => rw [hd] at h; simp at h
    | ok rd =>
      obtain ⟨sd, evd⟩ := rd
      rw [hd] at h
      simp only [Except.ok.injEq, Prod.mk.injEq] at h
      obtain ⟨-, h2, -⟩ := h
      subst h2
      unfold dispatch_fields at hd
      by_cases hcm : truthy m.command = true
      · rw [if_pos hcm] at hd
        have hcf := handle_command_fields (m.command.getD "") s1 sd evd hd
        simp [update_entry, hcf.2.1, hpres.2.1]
      · rw [if_neg (by simp [Bool.not_eq_true] at hcm; simp [hcm])] at hd
        by_cases hfr : truthy m.changeFrameRate = true
        · rw [if_pos hfr] at hd
          simp only [Except.ok.injEq, Prod.mk.injEq] at hd
          obtain ⟨hd1, -⟩ := hd
          subst hd1
          simp [update_entry, (hfc_fields (m.changeFrameRate.getD "") s1).2.1, hpres.2.1]
        · rw [if_neg (by simp [Bool.not_eq_true] at hfr; simp [hfr])] at hd
          by_cases hac : truthy m.action = true
          · rcases hsk with hx | hx | hx
            · exact absurd hx hcm
            · exact absurd hx hfr
            · rw [hac] at hx; exact absurd hx (by simp)
          · rw [if_neg (by simp [Bool.not_eq_true] at hac; simp [hac])] at hd
            simp only [Except.ok.injEq, Prod.mk.injEq] at hd
            obtain ⟨hd1, -⟩ := hd
            subst hd1
            simp [update_entry, hpres.2.1]

/-- C7 counterexample: with the configured action space ["noop", "Left"],
the action string "Left" is found at index 1 by the case-insensitive lookup
the claim describes, but the code lowercases only the incoming string and
compares it to the configured names verbatim, finds no match, and sets
`humanAction` to 0. -/
theorem action_lookup_cex :
    specCiIndex ["noop", "Left"] "Left" = some 1 ∧
    (handle_action "Left" s7cex).humanAction = 0 := by
  exact ⟨by decide, by decide⟩

/-- C7 (amended): the action string is trimmed and lowercased, then looked
up by exact match in the configured action space; if found `humanAction`
becomes its index, otherwise 0; and the resolved value persists across
steps and across messages that do not carry a non-empty action field. -/
theorem handle_action_spec (a : String) (s : TrialState) :
    ((handle_action a s).humanAction =
      match listIndex s.config.actionSpace (pyStripLower a) with
      | some i => i
      | none => 0) ∧
    (∀ w w2 t t2 ev, take_step w t = .ok (w2, t2, ev) → t2.humanAction = t.humanAction) ∧
    (∀ m w w2 t t2 ev, handle_message m w t = .ok (w2, t2, ev) →
      (truthy m.command = true ∨ truthy m.changeFrameRate = true ∨
        truthy m.action = false) →
      t2.humanAction = t.humanAction) := by
  refine ⟨rfl, ?_, ?_⟩
  · intro w w2 t t2 ev h
    exact (take_step_fields w w2 t t2 ev h).1
  · intro m w w2 t t2 ev h hsk
    exact hm_humanAction m w w2 t t2 ev h hsk

theorem handle_action_spec_witness :
    (update_entry (Entry.env { done := false }) sW).humanAction = sW.humanAction ∧
    (update_entry (Entry.msg mFR) (handle_framerate_change "faster" sW)).humanAction
        = sW.humanAction := by
  have h := handle_action_spec "left" sW
  constructor
  · exact h.2.1 wW { wW with stepIx := wW.stepIx + 1 } sW
      (update_entry (Entry.env { done := false }) sW) [Event.agentStep sW.humanAction] rfl
  · exact h.2.2 mFR wW wW sW
      (update_entry (Entry.msg mFR) (handle_framerate_change "faster" sW)) [] rfl
      (Or.inr (Or.inl rfl))

theorem endTrial_trial (s s2 : TrialState) (ev : List Event) (u : String)
    (hmode : s.config.dataFile = some "trial") (hid : s.userId = some u)
    (h : endTrial s = .ok (s2, ev)) :
    s2.config = s.config ∧ s2.userId = some u ∧ s2.done = true ∧ s2.play = false ∧
    writes ev = 1 ∧ opensOnly (trialPath u) ev = true := by
  obtain ⟨hs2, hex, hev⟩ := endTrial_ok s s2 ev h
  subst hs2
  obtain ⟨p, hp⟩ := hex hmode
  subst hev
  refine ⟨rfl, by simp [hid], rfl, rfl, ?_, ?_⟩
  · simp [hmode, hp, writes_append, writes]
  · simp [hmode, hp, opensOnly_append, opensOnly]

theorem reset_trial (s s2 : TrialState) (ev : List Event) (u : String)
    (hmode : s.config.dataFile = some "trial") (hid : s.userId = some u)
    (h : reset s = .ok (s2, ev)) :
    s2.config = s.config ∧ s2.userId = some u ∧
    s2.done = (s.done || check_trial_done s) ∧
    (check_trial_done s = true → s2.play = false) ∧
    (check_trial_done s = false → s2.play = s.play) ∧
    writes ev = (if check_trial_done s then 1 else 0) ∧
    opensOnly (trialPath u) ev = true := by
  by_cases hct : check_trial_done s = true
  · have h2 : endTrial s = .ok (s2, ev) := by rw [← h]; simp [reset, hct]
    obtain ⟨a1, a2, a3, a4, a5, a6⟩ := endTrial_trial s s2 ev u hmode hid h2
    refine ⟨a1, a2, ?_, fun _ => a4, fun hc => absurd hct (by simp [hc]), ?_, a6⟩
    · rw [hct, a3]; simp
    · rw [hct]; simpa using a5
  · have hctf : check_trial_done s = false := by simpa using hct
    rw [reset_ok_lt s hctf] at h
    simp only [Except.ok.injEq, Prod.mk.injEq] at h
    obtain ⟨h1, h2⟩ := h
    subst h1; subst h2
    have hcf : cfFilename s = "trial_" ++ u := by simp [cfFilename, hmode, hid, pyStr]
    refine ⟨rfl, by simp [hid], by simp [hctf], fun hc => absurd hc (by simp [hctf]),
            fun _ => rfl, ?_, ?_⟩
    · cases ho : s.outfile <;> by_cases hs3 : s.config.s3upload <;>
        simp [ho, hs3, hctf, writes, writes_append]
    · cases ho : s.outfile <;> by_cases hs3 : s.config.s3upload <;>
        simp [ho, hs3, opensOnly, opensOnly_append, trialPath, hcf]

theorem handle_command_trial (cmd : String) (s s2 : TrialState) (ev : List Event) (u : String)
    (hmode : s.config.dataFile = some "trial") (hid : s.userId = some u)
    (hdone : s.done = false)
    (h : handle_command cmd s = .ok (s2, ev)) :
    s2.config = s.config ∧ s2.userId = some u ∧
    writes ev = (if s2.done then 1 else 0) ∧
    opensOnly (trialPath u) ev = true ∧
    (s2.done = true → s2.play = false) := by
  unfold handle_command at h
  simp only [] at h
  split_ifs at h
  · simp only [Except.ok.injEq, Prod.mk.injEq] at h
    obtain ⟨h1, h2⟩ := h
    subst h1; subst h2
    exact ⟨rfl, by simp [hid], by simp [hdone, writes], by simp [opensOnly],
           fun hc => absurd hc (by simp [hdone])⟩
  · obtain ⟨a1, a2, a3, a4, a5, a6⟩ := endTrial_trial s s2 ev u hmode hid h
    exact ⟨a1, a2, by simp [a3, a5], a6, fun _ => a4⟩
  · obtain ⟨a1, a2, a3, a4, a5, a6, a7⟩ := reset_trial s s2 ev u hmode hid h
    refine ⟨a1, a2, ?_, a7, ?_⟩
    · rw [a6, a3, hdone]
      simp
    · intro hc
      rw [a3, hdone] at hc
      simp at hc
      exact a4 hc
  · simp only [Except.ok.injEq, Prod.mk.injEq] at h
    obtain ⟨h1, h2⟩ := h
    subst h1; subst h2
    exact ⟨rfl, by simp [hid], by simp [hdone, writes], by simp [opensOnly], fun _ => rfl⟩
  · simp only [Except.ok.injEq, Prod.mk.injEq] at h
    obtain ⟨h1, h2⟩ := h
    subst h1; subst h2
    exact ⟨rfl, by simp [hid], by simp [hdone, writes, send_ui], by simp [opensOnly, send_ui],
           fun hc => absurd hc (by simp [hdone])⟩
  · simp only [Except.ok.injEq, Prod.mk.injEq] at h
    obtain ⟨h1, h2⟩ := h
    subst h1; subst h2
    exact ⟨rfl, by simp [hid], by simp [hdone, writes], by simp [opensOnly],
           fun hc => absurd hc (by simp [hdone])⟩

theorem handle_message_trial (m : Msg) (w w2 : World) (s s2 : TrialState) (ev : List Event)
    (u : String)
    (hmode : s.config.dataFile = some "trial") (hid : s.userId = some u)
    (hdone : s.done = false)
    (h : handle_message m w s = .ok (w2, s2, ev)) :
    s2.config = s.config ∧ s2.userId = some u ∧
    writes ev = (if s2.done then 1 else 0) ∧
    opensOnly (trialPath u) ev = true ∧
    (s2.done = true → s2.play = false) := by
  unfold handle_message at h
  have hi : identify m w s = .ok (w, s, []) := by
    cases hm : m.userId <;> simp [identify, hid, hm]
  rw [hi] at h
  simp only [] at h
  cases hd : dispatch_fields m s with
  | error e => rw [hd] at h; simp at h
  | ok rd =>
    obtain ⟨sd, evd⟩ := rd
    rw [hd] at h
    simp only [Except.ok.injEq, Prod.mk.injEq] at h
    obtain ⟨-, h1, h2⟩ := h
    subst h1; subst h2
    unfold dispatch_fields at hd
    by_cases hcm : truthy m.command = true
    · rw [if_pos hcm] at hd
      obtain ⟨b1, b2, b3, b4, b5⟩ :=
        handle_command_trial (m.command.getD "") s sd evd u hmode hid hdone hd
      exact ⟨by simp [update_entry, b1], by simp [update_entry, b2],
             by simpa [update_entry] using b3, by simpa using b4,
             by simpa [update_entry] using b5⟩
    · rw [if_neg (by simp [Bool.not_eq_true] at hcm; simp [hcm])] at hd
      by_cases hfr : truthy m.changeFrameRate = true
      · rw [if_pos hfr] at hd
        simp only [Except.ok.injEq, Prod.mk.injEq] at hd
        obtain ⟨hd1, hd2⟩ := hd
        subst hd1; subst hd2
        have hf := hfc_fields (m.changeFrameRate.getD "") s
        exact ⟨by simp [update_entry, hf.1], by simp [update_entry, hf.2.2.2.2.1, hid],
               by simp [update_entry, hf.2.2.1, hdone, writes], by simp [opensOnly],
               fun hc => absurd hc (by simp [update_entry, hf.2.2.1, hdone])⟩
      · rw [if_neg (by simp [Bool.not_eq_true] at hfr; simp [hfr])] at hd
        by_cases hac : truthy m.action = true
        · rw [if_pos hac] at hd
          simp only [Except.ok.injEq, Prod.mk.injEq] at hd
          obtain ⟨hd1, hd2⟩ := hd
          subst hd1; subst hd2
          exact ⟨by simp [update_entry, handle_action], by simp [update_entry, handle_action, hid],
                 by simp [update_entry, handle_action, hdone, writes], by simp [opensOnly],
                 fun hc => absurd hc (by simp [update_entry, handle_action, hdone])⟩
        · rw [if_neg (by simp [Bool.not_eq_true] at hac; simp [hac])] at hd
          simp only [Except.ok.injEq, Prod.mk.injEq] at hd
          obtain ⟨hd1, hd2⟩ := hd
          subst hd1; subst hd2
          exact ⟨by simp [update_entry], by simp [update_entry, hid],
                 by simp [update_entry, hdone, writes], by simp [opensOnly],
                 fun hc => absurd hc (by simp [update_entry, hdone])⟩

theorem take_step_trial (w w2 : World) (s s2 : TrialState) (ev : List Event) (u : String)
    (hmode : s.config.dataFile = some "trial") (hid : s.userId = some u)
    (hdone : s.done = false)
    (h : take_step w s = .ok (w2, s2, ev)) :
    s2.config = s.config ∧ s2.userId = some u ∧
    writes ev = (if s2.done then 1 else 0) ∧
    opensOnly (trialPath u) ev = true ∧
    (s2.done = true → s2.play = false) := by
  unfold take_step at h
  simp only [] at h
  by_cases hd : (w.stepResults w.stepIx).done
  · rw [if_pos hd] at h
    cases hs : save_entry (update_entry (Entry.env (w.stepResults w.stepIx)) s) with
    | error e => rw [hs] at h; simp at h
    | ok rs =>
      obtain ⟨ss, evs⟩ := rs
      rw [hs] at h
      simp only [] at h
      have hsf := save_entry_fields _ ss evs hs
      have hevs : evs = [] := by
        unfold save_entry at hs
        rw [if_pos (show (update_entry (Entry.env (w.stepResults w.stepIx)) s).config.dataFile
            = some "trial" by simpa [update_entry] using hmode)] at hs
        simp only [Except.ok.injEq, Prod.mk.injEq] at hs
        exact hs.2.symm
      cases hr : reset ss with
      | error e => rw [hr] at h; simp at h
      | ok rr =>
        obtain ⟨sr, evr⟩ := rr
        rw [hr] at h
        simp only [] at h
        have hssm : ss.config.dataFile = some "trial" := by
          rw [hsf.2.2.1]; simpa [update_entry] using hmode
        have hssu : ss.userId = some u := by
          rw [hsf.2.2.2.1]; simpa [update_entry] using hid
        have hssd : ss.done = false := by
          rw [hsf.2.2.2.2.1]; simpa [update_entry] using hdone
        obtain ⟨a1, a2, a3, a4, a5, a6, a7⟩ := reset_trial ss sr evr u hssm hssu hr
        simp only [Except.ok.injEq, Prod.mk.injEq] at h
        obtain ⟨-, h1, h2⟩ := h
        subst h1; subst h2
        have hdone2 : sr.done = check_trial_done ss := by rw [a3, hssd]; simp
        refine ⟨?_, a2, ?_, ?_, ?_⟩
        · rw [a1, hsf.2.2.1]; simp [update_entry]
        · rw [hevs]
          simp only [List.append_nil, List.nil_append]
          rw [writes_append, a6, hdone2]
          simp [writes]
        · rw [hevs]
          simp [opensOnly_append, opensOnly, a7]
        · intro hc
          rw [hdone2] at hc
          exact a4 hc
  · rw [if_neg hd] at h
    simp only [Except.ok.injEq, Prod.mk.injEq] at h
    obtain ⟨-, h1, h2⟩ := h
    subst h1; subst h2
    exact ⟨by simp [update_entry], by simp [update_entry, hid],
           by simp [update_entry, hdone, writes], by simp [opensOnly],
           fun hc => absurd hc (by simp [update_entry, hdone])⟩

theorem play_phase_trial (w1 w5 : World) (s1 s4 : TrialState) (ev4 : List Event) (u : String)
    (hmode : s1.config.dataFile = some "trial") (hid : s1.userId = some u)
    (hdone : s1.done = false)
    (h : play_phase w1 s1 = .ok (w5, s4, ev4)) :
    s4.config = s1.config ∧ s4.userId = some u ∧
    writes ev4 = (if s4.done then 1 else 0) ∧
    opensOnly (trialPath u) ev4 = true ∧
    (s4.done = true → s4.play = false) := by
  unfold play_phase at h
  by_cases hp : s1.play
  · rw [if_pos hp] at h
    cases hg : get_render w1 s1 with
    | error e => rw [hg] at h; simp at h
    | ok g =>
      obtain ⟨w3, s2x, r, ev2⟩ := g
      rw [hg] at h
      simp only [] at h
      unfold get_render at hg
      cases hb : w1.renders w1.renderIx with
      | none => rw [hb] at hg; simp at hg
      | some f =>
        rw [hb] at hg
        simp only [Except.ok.injEq, Prod.mk.injEq] at hg
        obtain ⟨-, hg1, -, hg2⟩ := hg
        subst hg1
        subst hg2
        cases ht : take_step w3 { s1 with frameId := s1.frameId + 1 } with
        | error e => rw [ht] at h; simp at h
        | ok t =>
          obtain ⟨w4, s3, ev3⟩ := t
          rw [ht] at h
          simp only [Except.ok.injEq, Prod.mk.injEq] at h
          obtain ⟨-, h1, h2⟩ := h
          subst h1; subst h2
          obtain ⟨c1, c2, c3, c4, c5⟩ :=
            take_step_trial w3 w4 { s1 with frameId := s1.frameId + 1 } s3 ev3 u
              (by simpa using hmode) (by simpa using hid) (by simpa using hdone) ht
          refine ⟨by simpa using c1, c2, ?_, ?_, c5⟩
          · simp [writes_append, writes, send_render, c3]
          · simp [opensOnly_append, opensOnly, send_render, c4]
  · rw [if_neg hp] at h
    simp only [Except.ok.injEq, Prod.mk.injEq] at h
    obtain ⟨-, h1, h2⟩ := h
    subst h1; subst h2
    exact ⟨rfl, hid, by simp [hdone, writes], by simp [opensOnly],
           fun hc => absurd hc (by simp [hdone])⟩

theorem run_trial (fuel : Nat) : ∀ (w w2 : World) (s s2 : TrialState) (ev : List Event)
    (u : String),
    s.config.dataFile = some "trial" → s.userId = some u →
    run fuel w s = .ok (w2, s2, ev) →
    s2.config = s.config ∧ s2.userId = some u ∧
    opensOnly (trialPath u) ev = true ∧
    writes ev = (if s.done = false ∧ s2.done = true then 1 else 0) := by
  induction fuel with
  | zero =>
    intro w w2 s s2 ev u hmode hid h
    simp only [run, Except.ok.injEq, Prod.mk.injEq] at h
    obtain ⟨-, h1, h2⟩ := h
    subst h1; subst h2
    simp [opensOnly, writes, hid]
  | succ n ih =>
    intro w w2 s s2 ev u hmode hid h
    by_cases hdone : s.done = true
    · rw [run_done (n + 1) w s hdone] at h
      simp only [Except.ok.injEq, Prod.mk.injEq] at h
      obtain ⟨-, h1, h2⟩ := h
      subst h1; subst h2
      simp [opensOnly, writes, hdone, hid]
    · have hdf : s.done = false := by simpa using hdone
      simp only [run] at h
      rw [if_neg hdone] at h
      rcases hcm : check_message w s with ⟨mOpt, w1⟩
      rw [hcm] at h
      simp only [] at h
      have HMSG : ∀ w1b s1 ev1,
          (match mOpt with
            | some m => handle_message m w1 s
            | none => .ok (w1, s, [])) = .ok (w1b, s1, ev1) →
          s1.config = s.config ∧ s1.userId = some u ∧
          writes ev1 = (if s1.done then 1 else 0) ∧
          opensOnly (trialPath u) ev1 = true ∧
          (s1.done = true → s1.play = false) := by
        intro w1b s1 ev1 hm
        cases mOpt with
        | some m =>
          simp only [] at hm
          exact handle_message_trial m w1 w1b s s1 ev1 u hmode hid hdf hm
        | none =>
          simp only [Except.ok.injEq, Prod.mk.injEq] at hm
          obtain ⟨-, hm1, hm2⟩ := hm
          subst hm1; subst hm2
          exact ⟨rfl, hid, by simp [hdf, writes], by simp [opensOnly],
                 fun hc => absurd hc (by simp [hdf])⟩
      cases hr1 : (match mOpt with
          | some m => handle_message m w1 s
          | none => .ok (w1, s, [])) with
      | error e => rw [hr1] at h; simp at h
      | ok r1v =>
        obtain ⟨w1b, s1, ev1⟩ := r1v
        rw [hr1] at h
        simp only [] at h
        obtain ⟨b1, b2, b3, b4, b5⟩ := HMSG w1b s1 ev1 hr1
        cases hpp : play_phase w1b s1 with
        | error e => rw [hpp] at h; simp at h
        | ok ppv =>
          obtain ⟨w5, s4, ev4⟩ := ppv
          rw [hpp] at h
          simp only [] at h
          by_cases hd1 : s1.done = true
          · -- the message phase ended the trial: play is false, the play
            -- phase is a no-op and the recursion stops at the done state
            have hplay : s1.play = false := b5 hd1
            unfold play_phase at hpp
            rw [hplay] at hpp
            simp only [Bool.false_eq_true, if_false, Except.ok.injEq, Prod.mk.injEq] at hpp
            obtain ⟨hq0, hq1, hq2⟩ := hpp
            rw [← hq0, ← hq1, ← hq2] at h
            rw [run_done n w1b s1 hd1] at h
            simp only [Except.ok.injEq, Prod.mk.injEq] at h
            obtain ⟨-, h1, h2⟩ := h
            subst h1; subst h2
            refine ⟨b1, b2, ?_, ?_⟩
            · simp [opensOnly_append, opensOnly, b4]
            · simp [writes_append, writes, b3, hd1, hdf]
          · have hd1f : s1.done = false := by simpa using hd1
            obtain ⟨c1, c2, c3, c4, c5⟩ :=
              play_phase_trial w1b w5 s1 s4 ev4 u (by rw [b1]; exact hmode) b2 hd1f hpp
            by_cases hd4 : s4.done = true
            · rw [run_done n w5 s4 hd4] at h
              simp only [Except.ok.injEq, Prod.mk.injEq] at h
              obtain ⟨-, h1, h2⟩ := h
              subst h1; subst h2
              refine ⟨c1.trans b1, c2, ?_, ?_⟩
              · simp [opensOnly_append, opensOnly, b4, c4]
              · simp [writes_append, writes, b3, c3, hd1f, hd4, hdf]
            · have hd4f : s4.done = false := by simpa using hd4
              cases hrec : run n w5 s4 with
              | error e => rw [hrec] at h; simp at h
              | ok recv =>
                obtain ⟨w6, s5, ev5⟩ := recv
                rw [hrec] at h
                simp only [Except.ok.injEq, Prod.mk.injEq] at h
                obtain ⟨-, h1, h2⟩ := h
                subst h1; subst h2
                obtain ⟨d1, d2, d3, d4⟩ :=
                  ih w5 w6 s4 s5 ev5 u (by rw [c1, b1]; exact hmode) c2 hrec
                refine ⟨d1.trans (c1.trans b1), d2, ?_, ?_⟩
                · simp [opensOnly_append, opensOnly, b4, c4, d3]
                · simp [writes_append, writes, b3, c3, d4, hd1f, hd4f, hdf]

/-- C9: in whole-trial logging mode, for an identified session, every
telemetry file opened during a run of the main loop is the single
per-trial file (so no per-episode rotation to a new file occurs), and
exactly one flush of the accumulated trial log is written, exactly when
the run reaches End; a run that does not reach End writes nothing. -/
theorem trial_mode_single_flush (fuel : Nat) (w w2 : World) (s s2 : TrialState)
    (ev : List Event) (u : String)
    (hmode : s.config.dataFile = some "trial") (hid : s.userId = some u)
    (h : run fuel w s = .ok (w2, s2, ev)) :
    opensOnly (trialPath u) ev = true ∧
    writes ev = (if s.done = false ∧ s2.done = true then 1 else 0) := by
  obtain ⟨-, -, h3, h4⟩ := run_trial fuel w w2 s s2 ev u hmode hid h
  exact ⟨h3, h4⟩

theorem trial_mode_single_flush_witness :
    s9.config.dataFile = some "trial" ∧ s9.userId = some "u" ∧
    run 1 w9 s9 = .ok (w9f, s9f, ev9) ∧
    opensOnly (trialPath "u") ev9 = true ∧ writes ev9 = 1 := by
  have h := trial_mode_single_flush 1 w9 w9f s9 s9f ev9 "u" rfl rfl rfl
  exact ⟨rfl, rfl, rfl, h.1, h.2.trans (by decide)⟩

theorem reset_spec_witness :
    (sW.episode < sW.config.maxEpisodes.getD 20 ∧
      ∃ s2 ev, reset sW = .ok (s2, ev) ∧
        Event.agentReset ∈ ev ∧ (∃ q, Event.fileOpen q ∈ ev) ∧
        (∀ p, sW.outfile = some p → Event.fileClose p ∈ ev) ∧
        s2.episode = sW.episode + 1 ∧ s2.frameId = sW.frameId) ∧
    (sMax.config.maxEpisodes.getD 20 ≤ sMax.episode ∧ reset sMax = endTrial sMax) :=
  ⟨⟨by decide, (reset_spec sW).2 (by decide)⟩,
   ⟨by decide, ((reset_spec sMax).1 (by decide)).1⟩⟩
